import Mathlib

/-!
Verification development for the `ndsemu` 3D geometry/rasterization engine
(`engine3d.go`).  The Go code is embedded shallowly:

* `emu.Fixed12` (the Q12 fixed-point type) lives in the `emu` package whose
  source is not part of this excerpt; it is modelled from the spec below.
* Machine `int32` values are modelled as unbounded `Int`; every claim settled
  here is evaluated in ranges where 32-bit wrap-around cannot occur (the Go
  code computes the wide intermediate products in `int64`).
* Go slices carry a backing array and a capacity in their header.  The two
  preallocated storage arrays `vertexRams[2]` / `polyRams[2]` and the heap
  arrays created when `append` outgrows a slice's capacity are modelled by an
  explicit `Backing` tag plus a capacity field; `append` reallocates exactly
  when the length would exceed the capacity, as the Go runtime does.
* `mod3d.Fatalf` and `panic` (unrecoverable halts) are modelled by `Option`:
  `none` is the halt.
* `dumpNextScene` (file I/O only) and the lock/channel plumbing are not part
  of any functional claim and are omitted.
-/

/-- Modelled from the spec: `emu.Fixed12`, a signed fixed-point value with 12
fractional bits ("fixed-point format is a signed value with 12 fractional bits
throughout clip-space and slope math").  `V` is the raw integer. -/
structure Fixed12 where
  V : Int
deriving DecidableEq

instance : Inhabited Fixed12 := ⟨⟨0⟩⟩

/-- Modelled from the spec: `emu.NewFixed12` embeds an integer, placing it
above the 12 fractional bits. -/
def NewFixed12 (v : Int) : Fixed12 := ⟨v * 4096⟩

/-- Modelled from the spec: division of a fixed-point value by a plain
integer.  Go's `/` truncates toward zero, hence `Int.tdiv`. -/
def Fixed12.Div (f : Fixed12) (v : Int) : Fixed12 := ⟨Int.tdiv f.V v⟩

/-- Modelled from the spec: fixed/fixed division.  The numerator is shifted
up by 12 bits before the truncated division (this is the shift the source
comment on `vtxTransform` refers to: "viewwidth could be 256<<12, which would
overflow when further shifted in preparation for division"). -/
def Fixed12.DivFixed (f g : Fixed12) : Fixed12 := ⟨Int.tdiv (f.V * 4096) g.V⟩

/-- Modelled from the spec: fixed/fixed multiplication; the double-width
product is shifted down by 12 bits (arithmetic shift = floor division). -/
def Fixed12.MulFixed (f g : Fixed12) : Fixed12 := ⟨Int.fdiv (f.V * g.V) 4096⟩

/-- Modelled from the spec: add a plain integer to a fixed-point value. -/
def Fixed12.Add (f : Fixed12) (v : Int) : Fixed12 := ⟨f.V + v * 4096⟩

/-- Modelled from the spec: add two fixed-point values. -/
def Fixed12.AddFixed (f g : Fixed12) : Fixed12 := ⟨f.V + g.V⟩

/-- Modelled from the spec: drop the 12 fractional bits (arithmetic shift
right = floor division). -/
def Fixed12.ToInt32 (f : Fixed12) : Int := Int.fdiv f.V 4096

/-! ## Render-vertex flags (`RenderVertexFlags`, engine3d.go lines 35-47) -/

def RVFClipLeft : Nat := 1
def RVFClipRight : Nat := 2
def RVFClipTop : Nat := 4
def RVFClipBottom : Nat := 8
def RVFClipNear : Nat := 16
def RVFClipFar : Nat := 32
/-- vertex has been already transformed to screen space -/
def RVFTransformed : Nat := 64
def RVFClipAnything : Nat :=
  RVFClipLeft ||| RVFClipRight ||| RVFClipTop ||| RVFClipBottom ||| RVFClipNear ||| RVFClipFar

/-- `RPFQuad = 1 << 31` (bit 31 of the polygon attribute word). -/
def RPFQuad : Nat := 2147483648

/-- Mask of a `uint32` with bit 31 cleared; `x &&& RPFQuadMaskOut` models the
Go and-not `x &^ RPFQuad` on `uint32` values. -/
def RPFQuadMaskOut : Nat := 4294967295 ^^^ RPFQuad

/-! ## Data model (engine3d.go lines 15-33, 49-80) -/

/-- `E3DCmd_SetViewport`: new viewport, in pixel coordinates (0-255 / 0-191). -/
structure E3DCmd_SetViewport where
  vx0 : Int
  vy0 : Int
  vx1 : Int
  vy1 : Int
deriving DecidableEq

/-- `E3DCmd_Vertex`: new vertex with clip-space coordinates. -/
structure E3DCmd_Vertex where
  x : Fixed12
  y : Fixed12
  z : Fixed12
  w : Fixed12
deriving DecidableEq

/-- A Go `[4]int` of vertex indices. -/
structure Vtx4 where
  i0 : Int
  i1 : Int
  i2 : Int
  i3 : Int
deriving DecidableEq

/-- `E3DCmd_Polygon`: indices of vertices in Vertex RAM plus the attribute
word (`attr` is a Go `uint32`). -/
structure E3DCmd_Polygon where
  vtx : Vtx4
  attr : Nat
deriving DecidableEq

structure RenderVertex where
  cx : Fixed12 := ⟨0⟩
  cy : Fixed12 := ⟨0⟩
  cz : Fixed12 := ⟨0⟩
  cw : Fixed12 := ⟨0⟩
  flags : Nat := 0
  sx : Int := 0
  sy : Int := 0
  sz : Int := 0
deriving DecidableEq

instance : Inhabited RenderVertex := ⟨{}⟩

structure RenderPolygon where
  vtx : Vtx4 := ⟨0, 0, 0, 0⟩
  flags : Nat := 0
  /-- y coordinate of middle vertex -/
  hy : Int := 0
  dl0 : Fixed12 := ⟨0⟩
  dl1 : Fixed12 := ⟨0⟩
  dr0 : Fixed12 := ⟨0⟩
  dr1 : Fixed12 := ⟨0⟩
  cx0 : Fixed12 := ⟨0⟩
  cx1 : Fixed12 := ⟨0⟩
deriving DecidableEq

/-- Identity of the physical storage array behind a Go slice: one of the two
preallocated ping-pong arrays (`vertexRams[i]` / `polyRams[i]`), a heap array
created by `append` when it outgrows the capacity, or the `nil` slice a Go
slice field starts out as. -/
inductive Backing where
  | nil : Backing
  | slot : Nat → Backing
  | heap : Nat → Backing
deriving DecidableEq

/-- `HwEngine3d` state.  The `List` fields are the slice contents; each slice
also carries the identity of its backing array and (for the appended-to
"next" slices) its capacity.  `freshCnt` numbers the heap arrays allocated by
`append` so far, so that each reallocation yields a backing distinct from
every live one. -/
structure HwEngine3d where
  viewport : E3DCmd_SetViewport := ⟨0, 0, 0, 0⟩
  curVram : List RenderVertex := []
  curPram : List RenderPolygon := []
  nextVram : List RenderVertex := []
  nextPram : List RenderPolygon := []
  framecnt : Nat := 0
  curVramBack : Backing := .nil
  curPramBack : Backing := .nil
  nextVramBack : Backing := .nil
  nextPramBack : Backing := .nil
  nextVramCap : Nat := 0
  nextPramCap : Nat := 0
  freshCnt : Nat := 0
deriving DecidableEq

/-- `NewHwEngine3d`: both "next" slices start as the parity-0 storage slot,
truncated to empty, with the full 4096 capacity. -/
def NewHwEngine3d : HwEngine3d :=
  { nextVram := [], nextPram := [],
    nextVramBack := .slot 0, nextPramBack := .slot 0,
    nextVramCap := 4096, nextPramCap := 4096 }

/-- Go `append` slice-header bookkeeping: appending `k` elements to a slice
of length `len` keeps the backing array while `len + k` fits the capacity and
otherwise moves the slice onto a fresh heap array with a larger capacity.
(The exact grown capacity follows the Go runtime's growth policy; no claim
depends on the amount, only on `len + k` fitting, so `2*cap ⊔ (len+k)` is
used.) -/
def appendSlice (len k cap : Nat) (back : Backing) (fresh : Nat) :
    Backing × Nat × Nat :=
  if len + k ≤ cap then (back, cap, fresh)
  else (Backing.heap fresh, max (2 * cap) (len + k), fresh + 1)

/-! ## cmdVertex (engine3d.go lines 133-168) -/

/-- The `RenderVertex` built by `cmdVertex` from an `E3DCmd_Vertex`: clip
flags are computed once per vertex from the `±w` comparisons, and a vertex
with `w == 0` is flagged as fully outside the screen. -/
def buildVertex (cmd : E3DCmd_Vertex) : RenderVertex :=
  let f0 : Nat := 0
  let f1 := if cmd.x.V < -cmd.w.V then f0 ||| RVFClipLeft else f0
  let f2 := if cmd.x.V > cmd.w.V then f1 ||| RVFClipRight else f1
  let f3 := if cmd.y.V < -cmd.w.V then f2 ||| RVFClipTop else f2
  let f4 := if cmd.y.V > cmd.w.V then f3 ||| RVFClipBottom else f3
  let f5 := if cmd.w.V = 0 then f4 ||| RVFClipAnything else f4
  { cx := cmd.x, cy := cmd.y, cz := cmd.z, cw := cmd.w, flags := f5 }

/-- `cmdVertex`: build the vertex and `append` it to the "next" vertex slice
(there is no capacity check in the source; `append` semantics apply). -/
def cmdVertex (e3d : HwEngine3d) (cmd : E3DCmd_Vertex) : HwEngine3d :=
  let m := appendSlice e3d.nextVram.length 1 e3d.nextVramCap e3d.nextVramBack e3d.freshCnt
  { e3d with nextVram := e3d.nextVram ++ [buildVertex cmd],
             nextVramBack := m.1, nextVramCap := m.2.1, freshCnt := m.2.2 }

/-! ## vtxTransform (engine3d.go lines 219-239) -/

/-- `vtxTransform`: project a clip-space vertex to screen space with the
given viewport; a no-op if the vertex is already transformed.  (Division by
`cw = 0` cannot occur on vertices that reach this function: `cmdPolygon`
drops any polygon whose vertex carries a clip flag, and `w == 0` sets all of
them.) -/
def vtxTransform (viewport : E3DCmd_SetViewport) (vtx : RenderVertex) :
    RenderVertex :=
  if vtx.flags &&& RVFTransformed ≠ 0 then vtx
  else
    let viewwidth := NewFixed12 (viewport.vx1 - viewport.vx0 + 1)
    let viewheight := NewFixed12 (viewport.vy1 - viewport.vy0 + 1)
    let dx := (viewwidth.Div 2).DivFixed vtx.cw
    let dy := (viewheight.Div 2).DivFixed vtx.cw
    { vtx with
      sx := (((vtx.cx.AddFixed vtx.cw).MulFixed dx).Add viewport.vx0).ToInt32,
      sy := (((vtx.cy.AddFixed vtx.cw).MulFixed dy).Add viewport.vy0).ToInt32,
      sz := (((vtx.cz.AddFixed vtx.cw).Div 2).DivFixed vtx.cw).ToInt32,
      flags := vtx.flags ||| RVFTransformed }

/-! ## cmdPolygon (engine3d.go lines 170-217) -/

/-- The list of vertex indices a polygon command refers to: the first 3, or
all 4 when bit 31 (the quad flag) of the attribute word is set. -/
def polyIdxList (cmd : E3DCmd_Polygon) : List Int :=
  if cmd.attr &&& RPFQuad ≠ 0 then [cmd.vtx.i0, cmd.vtx.i1, cmd.vtx.i2, cmd.vtx.i3]
  else [cmd.vtx.i0, cmd.vtx.i1, cmd.vtx.i2]

/-- The bounds-check / clip-check loop of `cmdPolygon` (lines 182-191):
per index, an out-of-range index is fatal (`none`); the first vertex that
carries any clip flag stops the loop with `some true`. -/
def clipCheck (vram : List RenderVertex) : List Int → Option Bool
  | [] => some false
  | i :: rest =>
    if (vram.length : Int) ≤ i ∨ i < 0 then none
    else if (vram.getD i.toNat default).flags &&& RVFClipAnything ≠ 0 then some true
    else clipCheck vram rest

/-- The transform loop of `cmdPolygon` (lines 199-201): transform each
referenced vertex in place (in index order). -/
def transformLoop (viewport : E3DCmd_SetViewport) (vram : List RenderVertex)
    (idxs : List Int) : List RenderVertex :=
  idxs.foldl (fun vr i => vr.set i.toNat (vtxTransform viewport (vr.getD i.toNat default))) vram

/-- `cmdPolygon`: bounds/clip check, early-out on clipping, transform the
referenced vertices, then store the triangle — or, for a quad, the two
triangles obtained by clearing the quad bit and moving submitted index 3
into slot 1 of the second copy. -/
def cmdPolygon (e3d : HwEngine3d) (cmd : E3DCmd_Polygon) : Option HwEngine3d :=
  let idxs := polyIdxList cmd
  match clipCheck e3d.nextVram idxs with
  | none => none
  | some true => some e3d
  | some false =>
    let vram2 := transformLoop e3d.viewport e3d.nextVram idxs
    if cmd.attr &&& RPFQuad ≠ 0 then
      let p1 : RenderPolygon := { vtx := cmd.vtx, flags := cmd.attr &&& RPFQuadMaskOut }
      let p2 : RenderPolygon := { p1 with vtx := { p1.vtx with i1 := p1.vtx.i3 } }
      let m := appendSlice e3d.nextPram.length 2 e3d.nextPramCap e3d.nextPramBack e3d.freshCnt
      some { e3d with nextVram := vram2,
                      nextPram := e3d.nextPram ++ [p1, p2],
                      nextPramBack := m.1, nextPramCap := m.2.1, freshCnt := m.2.2 }
    else
      let p : RenderPolygon := { vtx := cmd.vtx, flags := cmd.attr }
      let m := appendSlice e3d.nextPram.length 1 e3d.nextPramCap e3d.nextPramBack e3d.freshCnt
      some { e3d with nextVram := vram2,
                      nextPram := e3d.nextPram ++ [p],
                      nextPramBack := m.1, nextPramCap := m.2.1, freshCnt := m.2.2 }

/-! ## preparePolys (engine3d.go lines 241-296) -/

/-- The three pairwise compare-and-swap steps of `preparePolys` (lines
248-259) on the triangle's vertex indices, comparing screen `sy` through the
lookup `f`: returns the indices ordered top, middle, bottom. -/
def sortTri (f : Int → Int) (a b c : Int) : Int × Int × Int :=
  let a1 := if f a > f b then b else a
  let b1 := if f a > f b then a else b
  let a2 := if f a1 > f c then c else a1
  let c1 := if f a1 > f c then a1 else c
  let b2 := if f b1 > f c1 then c1 else b1
  let c2 := if f b1 > f c1 then b1 else c1
  (a2, b2, c2)

/-- Polygon setup for one stored triangle (the body of `preparePolys`):
sort the three vertex indices by `sy`, assert the order (`panic` = `none`),
derive the four edge slopes, swap the slope pairs if the left one starts
right of the right one, and initialize the running span bounds, advancing
them by one step when the top segment has zero height. -/
def preparePoly (vram : List RenderVertex) (p : RenderPolygon) :
    Option RenderPolygon :=
  let syf := fun i : Int => (vram.getD i.toNat default).sy
  let sxf := fun i : Int => (vram.getD i.toNat default).sx
  let t := sortTri syf p.vtx.i0 p.vtx.i1 p.vtx.i2
  let a := t.1
  let b := t.2.1
  let c := t.2.2
  let hy1 := syf b - syf a
  let hy2 := syf c - syf b
  if hy1 < 0 ∨ hy2 < 0 then none
  else
    let cx0 := NewFixed12 (sxf a)
    let cx1 := NewFixed12 (sxf a)
    let dl0 := if hy1 > 0 then (NewFixed12 (sxf b - sxf a)).Div hy1
               else NewFixed12 (sxf b - sxf a)
    let dl1 := if hy2 > 0 then (NewFixed12 (sxf c - sxf b)).Div hy2
               else NewFixed12 (sxf c - sxf b)
    let dr0 := if hy1 + hy2 > 0 then (NewFixed12 (sxf c - sxf a)).Div (hy1 + hy2) else p.dr0
    let dr1 := if hy1 + hy2 > 0 then (NewFixed12 (sxf c - sxf a)).Div (hy1 + hy2) else p.dr1
    let sl0 := if dl0.V > dr0.V then dr0 else dl0
    let sl1 := if dl0.V > dr0.V then dr1 else dl1
    let sr0 := if dl0.V > dr0.V then dl0 else dr0
    let sr1 := if dl0.V > dr0.V then dl1 else dr1
    let ex0 := if hy1 = 0 then cx0.AddFixed sl0 else cx0
    let ex1 := if hy1 = 0 then cx1.AddFixed sr0 else cx1
    some { p with vtx := ⟨a, b, c, p.vtx.i3⟩,
                  dl0 := sl0, dl1 := sl1, dr0 := sr0, dr1 := sr1,
                  cx0 := ex0, cx1 := ex1, hy := syf b }

/-- `preparePolys`: polygon setup over every polygon in the "next" array. -/
def preparePolys (vram : List RenderVertex) (pram : List RenderPolygon) :
    Option (List RenderPolygon) :=
  pram.mapM (preparePoly vram)

/-! ## cmdSwapBuffers (engine3d.go lines 326-341) -/

/-- `cmdSwapBuffers`: run polygon setup over "next", then promote "next" to
"current" and re-slice "next" from the storage slot whose parity matches the
incremented frame counter, truncated to empty. -/
def cmdSwapBuffers (e3d : HwEngine3d) : Option HwEngine3d :=
  match preparePolys e3d.nextVram e3d.nextPram with
  | none => none
  | some pram2 =>
    let fc := e3d.framecnt + 1
    some { e3d with
      framecnt := fc,
      curVram := e3d.nextVram, curPram := pram2,
      curVramBack := e3d.nextVramBack, curPramBack := e3d.nextPramBack,
      nextVram := [], nextVramBack := .slot (fc &&& 1), nextVramCap := 4096,
      nextPram := [], nextPramBack := .slot (fc &&& 1), nextPramCap := 4096 }

/-! ## Command dispatch (`recvCmd`, engine3d.go lines 115-131) -/

inductive Cmd where
  | swapBuffers : Cmd
  | setViewport : E3DCmd_SetViewport → Cmd
  | polygon : E3DCmd_Polygon → Cmd
  | vertex : E3DCmd_Vertex → Cmd
deriving DecidableEq

/-- One iteration of the `recvCmd` dispatch loop. -/
def applyCmd (e3d : HwEngine3d) : Cmd → Option HwEngine3d
  | .swapBuffers => cmdSwapBuffers e3d
  | .setViewport c => some { e3d with viewport := c }
  | .polygon c => cmdPolygon e3d c
  | .vertex c => some (cmdVertex e3d c)

/-- Apply a list of commands in submission order; `none` if any is fatal. -/
def run (e3d : HwEngine3d) : List Cmd → Option HwEngine3d
  | [] => some e3d
  | c :: cs =>
    match applyCmd e3d c with
    | none => none
    | some e2 => run e2 cs

/-- Number of `SwapBuffers` commands in a command list. -/
def countSwaps : List Cmd → Nat
  | [] => 0
  | .swapBuffers :: cs => countSwaps cs + 1
  | _ :: cs => countSwaps cs

/-! ## Draw3D scanline-bucket population (engine3d.go lines 347-354) -/

/-- The integers `a, a+1, ..., b` (empty when `b < a`). -/
def intRange (a b : Int) : List Int :=
  (List.range (b + 1 - a).toNat).map fun n => a + n

/-- The bucket indices written by `Draw3D`'s per-scanline population loop:
for every polygon of the "current" frame, every `y` from `v0.sy` to `v2.sy`
inclusive (`polyPerLine` itself is a 192-entry array, valid indices 0-191). -/
def drawBucketYs (e3d : HwEngine3d) : List Int :=
  e3d.curPram.foldr (fun p acc =>
    intRange (e3d.curVram.getD p.vtx.i0.toNat default).sy
             (e3d.curVram.getD p.vtx.i2.toNat default).sy ++ acc) []

/-- `drawBucketYs` of the state a command list reaches from startup
(empty if the run halts). -/
def runBuckets (cmds : List Cmd) : List Int :=
  (run NewHwEngine3d cmds).elim [] drawBucketYs

/-- The three vertex indices a stored triangle is rasterized from (slots
0-2 of `vtx`; slot 3 is unused after the quad split). -/
def triIdx (p : RenderPolygon) : List Int := [p.vtx.i0, p.vtx.i1, p.vtx.i2]

/-- The slice-backing invariant maintained by the engine: each "next" slice
is backed either by the storage slot whose parity matches the frame counter
or by a heap array already allocated (index below `freshCnt`), and is never
backed by the same physical array as its "current" counterpart. -/
def EngineInv (s : HwEngine3d) : Prop :=
  (s.nextVramBack = Backing.slot (s.framecnt &&& 1) ∨
    ∃ i, s.nextVramBack = Backing.heap i ∧ i < s.freshCnt) ∧
  (s.nextPramBack = Backing.slot (s.framecnt &&& 1) ∨
    ∃ i, s.nextPramBack = Backing.heap i ∧ i < s.freshCnt) ∧
  s.curVramBack ≠ s.nextVramBack ∧
  s.curPramBack ≠ s.nextPramBack ∧
  (∀ i, s.curVramBack = Backing.heap i → i < s.freshCnt) ∧
  (∀ i, s.curPramBack = Backing.heap i → i < s.freshCnt)

/-- A command sequence (viewport inside the 256×192 display) ending in a
frame whose single triangle has all three vertices at `cy = cw` (the bottom
clip boundary, which the strict `cy > cw` test does not flag). -/
def boundaryScene : List Cmd :=
  [Cmd.setViewport ⟨0, 0, 255, 191⟩,
   Cmd.vertex ⟨⟨0⟩, ⟨4096⟩, ⟨0⟩, ⟨4096⟩⟩,
   Cmd.vertex ⟨⟨0⟩, ⟨4096⟩, ⟨0⟩, ⟨4096⟩⟩,
   Cmd.vertex ⟨⟨0⟩, ⟨4096⟩, ⟨0⟩, ⟨4096⟩⟩,
   Cmd.polygon ⟨⟨0, 1, 2, 0⟩, 0⟩,
   Cmd.swapBuffers]


/-! ## Helper lemmas -/

/-- If bit `i` is set in `y` and in `m`, then `(x ||| y) &&& m` is nonzero. -/
theorem lor_land_ne_zero (x y m i : Nat) (hy : y.testBit i) (hm : m.testBit i) :
    (x ||| y) &&& m ≠ 0 := by
  intro h
  have hb : ((x ||| y) &&& m).testBit i = true := by
    rw [Nat.testBit_and, Nat.testBit_or, hy, hm]
    simp
  rw [h] at hb
  simp at hb

/-- Any vertex returned by `vtxTransform` carries the transformed flag. -/
theorem vtxTransform_transformed (vp : E3DCmd_SetViewport) (v : RenderVertex) :
    (vtxTransform vp v).flags &&& RVFTransformed ≠ 0 := by
  unfold vtxTransform
  by_cases h : v.flags &&& RVFTransformed ≠ 0
  · rw [if_pos h]
    exact h
  · rw [if_neg h]
    exact lor_land_ne_zero v.flags RVFTransformed RVFTransformed 6 (by decide) (by decide)

/-- An already-transformed vertex is returned unchanged. -/
theorem vtxTransform_noop (vp : E3DCmd_SetViewport) (v : RenderVertex)
    (h : v.flags &&& RVFTransformed ≠ 0) : vtxTransform vp v = v := by
  unfold vtxTransform
  rw [if_pos h]
/-! ## Claim C7 -/

/-- When `w == 0`, any flag bit inside `RVFClipAnything` is set on the built
vertex (the `cw == 0` rule ORs the whole clip mask in). -/
theorem buildVertex_w_zero_flag_set (cmd : E3DCmd_Vertex) (hw : cmd.w.V = 0)
    (m i : Nat) (hm : m.testBit i) (hi : RVFClipAnything.testBit i) :
    (buildVertex cmd).flags &&& m ≠ 0 := by
  simp only [buildVertex]
  rw [if_pos hw]
  exact lor_land_ne_zero _ _ _ i hi hm

/-- C7: for every Vertex command with `w == 0`, the vertex appended to the
next vertex array has all six clip flags (left, right, top, bottom, near,
far) set. -/
theorem vertex_w_zero_sets_all_clip_flags (e3d : HwEngine3d) (cmd : E3DCmd_Vertex)
    (hw : cmd.w.V = 0) :
    (cmdVertex e3d cmd).nextVram = e3d.nextVram ++ [buildVertex cmd] ∧
    (buildVertex cmd).flags &&& RVFClipLeft ≠ 0 ∧
    (buildVertex cmd).flags &&& RVFClipRight ≠ 0 ∧
    (buildVertex cmd).flags &&& RVFClipTop ≠ 0 ∧
    (buildVertex cmd).flags &&& RVFClipBottom ≠ 0 ∧
    (buildVertex cmd).flags &&& RVFClipNear ≠ 0 ∧
    (buildVertex cmd).flags &&& RVFClipFar ≠ 0 :=
  ⟨rfl,
   buildVertex_w_zero_flag_set cmd hw _ 0 (by decide) (by decide),
   buildVertex_w_zero_flag_set cmd hw _ 1 (by decide) (by decide),
   buildVertex_w_zero_flag_set cmd hw _ 2 (by decide) (by decide),
   buildVertex_w_zero_flag_set cmd hw _ 3 (by decide) (by decide),
   buildVertex_w_zero_flag_set cmd hw _ 4 (by decide) (by decide),
   buildVertex_w_zero_flag_set cmd hw _ 5 (by decide) (by decide)⟩

/-- Witness for C7 at a concrete command with `w = 0`. -/
theorem vertex_w_zero_sets_all_clip_flags_witness :
    (cmdVertex NewHwEngine3d ⟨⟨5⟩, ⟨6⟩, ⟨7⟩, ⟨0⟩⟩).nextVram
      = NewHwEngine3d.nextVram ++ [buildVertex ⟨⟨5⟩, ⟨6⟩, ⟨7⟩, ⟨0⟩⟩] ∧
    (buildVertex ⟨⟨5⟩, ⟨6⟩, ⟨7⟩, ⟨0⟩⟩).flags &&& RVFClipLeft ≠ 0 ∧
    (buildVertex ⟨⟨5⟩, ⟨6⟩, ⟨7⟩, ⟨0⟩⟩).flags &&& RVFClipRight ≠ 0 ∧
    (buildVertex ⟨⟨5⟩, ⟨6⟩, ⟨7⟩, ⟨0⟩⟩).flags &&& RVFClipTop ≠ 0 ∧
    (buildVertex ⟨⟨5⟩, ⟨6⟩, ⟨7⟩, ⟨0⟩⟩).flags &&& RVFClipBottom ≠ 0 ∧
    (buildVertex ⟨⟨5⟩, ⟨6⟩, ⟨7⟩, ⟨0⟩⟩).flags &&& RVFClipNear ≠ 0 ∧
    (buildVertex ⟨⟨5⟩, ⟨6⟩, ⟨7⟩, ⟨0⟩⟩).flags &&& RVFClipFar ≠ 0 :=
  vertex_w_zero_sets_all_clip_flags NewHwEngine3d ⟨⟨5⟩, ⟨6⟩, ⟨7⟩, ⟨0⟩⟩ (by decide)

/-! ## Claim C9 -/

/-- C9: vertex transform is idempotent.  A vertex whose transformed flag is
set is returned unchanged, and transforming twice — under possibly different
active viewports — equals transforming once.  (The `cw ≠ 0` hypothesis scopes
the statement to inputs on which the Go division is defined; every vertex a
polygon ever submits to the transform satisfies it, since `cw == 0` forces
clip flags and clip-flagged polygons are dropped before transforming.) -/
theorem vtxTransform_idempotent (vp1 vp2 : E3DCmd_SetViewport) (v : RenderVertex)
    (hcw : v.cw.V ≠ 0) :
    (v.flags &&& RVFTransformed ≠ 0 → vtxTransform vp1 v = v) ∧
    vtxTransform vp2 (vtxTransform vp1 v) = vtxTransform vp1 v :=
  ⟨fun h => vtxTransform_noop vp1 v h,
   vtxTransform_noop vp2 (vtxTransform vp1 v) (vtxTransform_transformed vp1 v)⟩

/-- Witness for C9 at a concrete vertex and two different viewports. -/
theorem vtxTransform_idempotent_witness :
    ((⟨⟨1⟩, ⟨2⟩, ⟨3⟩, ⟨4096⟩, 0, 0, 0, 0⟩ : RenderVertex).flags &&& RVFTransformed ≠ 0 →
      vtxTransform ⟨0, 0, 255, 191⟩ ⟨⟨1⟩, ⟨2⟩, ⟨3⟩, ⟨4096⟩, 0, 0, 0, 0⟩
        = ⟨⟨1⟩, ⟨2⟩, ⟨3⟩, ⟨4096⟩, 0, 0, 0, 0⟩) ∧
    vtxTransform ⟨0, 0, 15, 15⟩
        (vtxTransform ⟨0, 0, 255, 191⟩ ⟨⟨1⟩, ⟨2⟩, ⟨3⟩, ⟨4096⟩, 0, 0, 0, 0⟩)
      = vtxTransform ⟨0, 0, 255, 191⟩ ⟨⟨1⟩, ⟨2⟩, ⟨3⟩, ⟨4096⟩, 0, 0, 0, 0⟩ :=
  vtxTransform_idempotent ⟨0, 0, 255, 191⟩ ⟨0, 0, 15, 15⟩ _ (by decide)

/-! ## Claim C8 -/

/-- A vertex at the clip-space center with `cw = k > 0` picks up no clip
flags. -/
theorem buildVertex_center (cz : Fixed12) (k : Int) (hk : 0 < k) :
    buildVertex ⟨⟨0⟩, ⟨0⟩, cz, ⟨k⟩⟩
      = { cx := ⟨0⟩, cy := ⟨0⟩, cz := cz, cw := ⟨k⟩, flags := 0 } := by
  have h1 : ¬ ((0 : Int) < -k) := by omega
  have h2 : ¬ ((0 : Int) > k) := by omega
  have h3 : ¬ (k = 0) := by omega
  simp [buildVertex, h1, h2, h3]

/-- C8 (amended): transforming a center vertex (`cx = cy = 0`, `cw = k > 0`)
through an origin viewport of width `N` and height `M` yields
`(N / 2, M / 2)` whenever `k` divides `N·2²³` and `M·2²³` (for example any
power of two `k`); for other `k` the truncated divisions lose up to one
pixel, so the result is not independent of `k` in general. -/
theorem center_vertex_maps_to_screen_center (N M k : Int) (cz : Fixed12)
    (hN : 0 < N) (hM : 0 < M) (hk : 0 < k)
    (hdN : k ∣ N * 8388608) (hdM : k ∣ M * 8388608) :
    (vtxTransform ⟨0, 0, N - 1, M - 1⟩ (buildVertex ⟨⟨0⟩, ⟨0⟩, cz, ⟨k⟩⟩)).sx
      = Int.tdiv N 2 ∧
    (vtxTransform ⟨0, 0, N - 1, M - 1⟩ (buildVertex ⟨⟨0⟩, ⟨0⟩, cz, ⟨k⟩⟩)).sy
      = Int.tdiv M 2 := by
  rw [buildVertex_center cz k hk]
  have key : ∀ L : Int, 0 < L → k ∣ L * 8388608 →
      (((Fixed12.AddFixed ⟨0⟩ ⟨k⟩).MulFixed
          (((NewFixed12 (L - 1 - 0 + 1)).Div 2).DivFixed ⟨k⟩)).Add 0).ToInt32
        = Int.tdiv L 2 := by
    intro L hL hd
    have hL0 : L - 1 - 0 + 1 = L := by omega
    rw [hL0]
    simp only [NewFixed12, Fixed12.Div, Fixed12.DivFixed, Fixed12.MulFixed,
      Fixed12.AddFixed, Fixed12.Add, Fixed12.ToInt32]
    have e1 : Int.tdiv (L * 4096) 2 = L * 2048 := by
      have : L * 4096 = (L * 2048) * 2 := by ring
      rw [this, Int.mul_tdiv_cancel _ (by norm_num)]
    rw [e1]
    have e2 : Int.tdiv (L * 2048 * 4096) k = (L * 8388608) / k := by
      have h483 : L * 2048 * 4096 = L * 8388608 := by ring
      rw [h483, Int.tdiv_eq_ediv (by positivity) (le_of_lt hk)]
    rw [e2]
    have e3 : (0 + k) * ((L * 8388608) / k) = L * 8388608 := by
      rw [Int.zero_add]
      exact Int.mul_ediv_cancel' hd
    rw [e3]
    have e4 : Int.fdiv (L * 8388608) 4096 = L * 2048 := by
      have : L * 8388608 = (L * 2048) * 4096 := by ring
      rw [this, Int.mul_fdiv_cancel _ (by norm_num)]
    rw [e4]
    have e5 : L * 2048 + 0 * 4096 = L * 2048 := by ring
    rw [e5]
    have e6 : Int.fdiv (L * 2048) 4096 = Int.tdiv L 2 := by
      rw [Int.fdiv_eq_ediv _ (by norm_num), Int.tdiv_eq_ediv (le_of_lt hL) (by norm_num)]
      have hl : L * 2048 = 2048 * L := by ring
      have hr : (4096 : Int) = 2048 * 2 := by norm_num
      rw [hl, hr, Int.mul_ediv_mul_of_pos _ _ (by norm_num : (0:Int) < 2048)]
    rw [e6]
  have hx := key N hN hdN
  have hy := key M hM hdM
  constructor
  · simp only [vtxTransform]
    rw [if_neg (by decide)]
    exact hx
  · simp only [vtxTransform]
    rw [if_neg (by decide)]
    exact hy

/-- Witness for C8 (amended) at `N = M = 16`, `k = 4096` (i.e. `w = 1.0`):
the screen center `(8, 8)` comes out. -/
theorem center_vertex_maps_to_screen_center_witness :
    (vtxTransform ⟨0, 0, 16 - 1, 16 - 1⟩ (buildVertex ⟨⟨0⟩, ⟨0⟩, ⟨0⟩, ⟨4096⟩⟩)).sx
      = Int.tdiv 16 2 ∧
    (vtxTransform ⟨0, 0, 16 - 1, 16 - 1⟩ (buildVertex ⟨⟨0⟩, ⟨0⟩, ⟨0⟩, ⟨4096⟩⟩)).sy
      = Int.tdiv 16 2 :=
  center_vertex_maps_to_screen_center 16 16 4096 ⟨0⟩ (by decide) (by decide) (by decide)
    ⟨32768, by decide⟩ ⟨32768, by decide⟩

/-- Counterexample to C8 as stated: with a 16×16 viewport at the origin and
`k = 4097`, the center vertex maps to `sx = 7`, not `16 / 2 = 8` — the result
is not independent of `k`. -/
theorem center_vertex_not_independent_of_k :
    (vtxTransform ⟨0, 0, 15, 15⟩ (buildVertex ⟨⟨0⟩, ⟨0⟩, ⟨0⟩, ⟨4097⟩⟩)).sx = 7 ∧
    ((7 : Int) = Int.tdiv 16 2 → False) := by
  constructor
  · decide
  · decide

/-! ## Claim C5 -/

/-- The three compare-and-swap steps leave the `f`-values of the returned
triple in ascending order. -/
theorem sortTri_sorted (f : Int → Int) (a b c : Int) :
    f (sortTri f a b c).1 ≤ f (sortTri f a b c).2.1 ∧
    f (sortTri f a b c).2.1 ≤ f (sortTri f a b c).2.2 := by
  simp only [sortTri]
  split_ifs <;> constructor <;> omega

/-- C5: polygon setup always succeeds — the three pairwise compare-and-swap
steps leave `v0.sy ≤ v1.sy ≤ v2.sy`, so the `hy1 < 0 || hy2 < 0` fatal
branch ("invalid y order") is unreachable. -/
theorem preparePoly_sorts_by_sy (vram : List RenderVertex) (p : RenderPolygon) :
    ∃ p2, preparePoly vram p = some p2 ∧
      (vram.getD p2.vtx.i0.toNat default).sy ≤ (vram.getD p2.vtx.i1.toNat default).sy ∧
      (vram.getD p2.vtx.i1.toNat default).sy ≤ (vram.getD p2.vtx.i2.toNat default).sy := by
  have h := sortTri_sorted (fun i : Int => (vram.getD i.toNat default).sy)
    p.vtx.i0 p.vtx.i1 p.vtx.i2
  simp only at h
  simp only [preparePoly]
  rw [if_neg (by omega)]
  exact ⟨_, rfl, h.1, h.2⟩
/-! ## Claim C6 -/

/-- C6: polygon setup leaves `dl0 ≤ dr0` (swapping the slope pairs when the
initial left slope exceeds the initial right one), initializes both running
bounds to `v0.sx` in fixed point — except that when the top segment has zero
height (`v1.sy = v0.sy`) both bounds are advanced by one slope step — and
consequently starts with `cx0 ≤ cx1`. -/
theorem preparePoly_slopes_and_bounds (vram : List RenderVertex)
    (p p2 : RenderPolygon) (h : preparePoly vram p = some p2) :
    p2.dl0.V ≤ p2.dr0.V ∧
    p2.cx0.V ≤ p2.cx1.V ∧
    ((vram.getD p2.vtx.i1.toNat default).sy ≠ (vram.getD p2.vtx.i0.toNat default).sy →
      p2.cx0 = NewFixed12 (vram.getD p2.vtx.i0.toNat default).sx ∧
      p2.cx1 = NewFixed12 (vram.getD p2.vtx.i0.toNat default).sx) ∧
    ((vram.getD p2.vtx.i1.toNat default).sy = (vram.getD p2.vtx.i0.toNat default).sy →
      p2.cx0 = (NewFixed12 (vram.getD p2.vtx.i0.toNat default).sx).AddFixed p2.dl0 ∧
      p2.cx1 = (NewFixed12 (vram.getD p2.vtx.i0.toNat default).sx).AddFixed p2.dr0) := by
  simp only [preparePoly] at h
  split at h
  · exact absurd h (by simp)
  · rename_i hguard
    injection h with h
    subst h
    simp only [Fixed12.AddFixed, Fixed12.Div, NewFixed12, Fixed12.mk.injEq]
    split_ifs <;>
      refine ⟨?_, ?_, fun hne => ⟨?_, ?_⟩, fun heq => ⟨?_, ?_⟩⟩ <;>
      first
        | omega
        | (simp only [Fixed12.mk.injEq] at *
           all_goals omega)

/-- Witness for C6 on the spec's concrete triangle `(100,10),(50,50),(150,50)`. -/
theorem preparePoly_slopes_and_bounds_witness :
    (⟨⟨0, 1, 2, 0⟩, 0, 50, ⟨-5120⟩, ⟨409600⟩, ⟨5120⟩, ⟨5120⟩, ⟨409600⟩, ⟨409600⟩⟩ :
        RenderPolygon).dl0.V ≤
      (⟨⟨0, 1, 2, 0⟩, 0, 50, ⟨-5120⟩, ⟨409600⟩, ⟨5120⟩, ⟨5120⟩, ⟨409600⟩, ⟨409600⟩⟩ :
        RenderPolygon).dr0.V ∧
    (⟨⟨0, 1, 2, 0⟩, 0, 50, ⟨-5120⟩, ⟨409600⟩, ⟨5120⟩, ⟨5120⟩, ⟨409600⟩, ⟨409600⟩⟩ :
        RenderPolygon).cx0.V ≤
      (⟨⟨0, 1, 2, 0⟩, 0, 50, ⟨-5120⟩, ⟨409600⟩, ⟨5120⟩, ⟨5120⟩, ⟨409600⟩, ⟨409600⟩⟩ :
        RenderPolygon).cx1.V :=
  ⟨(preparePoly_slopes_and_bounds
      [{ sx := 100, sy := 10 }, { sx := 50, sy := 50 }, { sx := 150, sy := 50 }]
      { vtx := ⟨0, 1, 2, 0⟩ } _ (by decide)).1,
   (preparePoly_slopes_and_bounds
      [{ sx := 100, sy := 10 }, { sx := 50, sy := 50 }, { sx := 150, sy := 50 }]
      { vtx := ⟨0, 1, 2, 0⟩ } _ (by decide)).2.1⟩

/-! ## Claim C3 -/

/-- If every index is in range and some referenced vertex carries a clip
flag, the check loop reports clipping. -/
theorem clipCheck_eq_some_true (vram : List RenderVertex) (l : List Int)
    (hrange : ∀ i ∈ l, 0 ≤ i ∧ i < (vram.length : Int))
    (hclip : ∃ i ∈ l, (vram.getD i.toNat default).flags &&& RVFClipAnything ≠ 0) :
    clipCheck vram l = some true := by
  induction l with
  | nil => simp at hclip
  | cons j rest ih =>
    obtain ⟨hj0, hjlt⟩ := hrange j (by simp)
    simp only [clipCheck]
    rw [if_neg (by omega)]
    by_cases hc : (vram.getD j.toNat default).flags &&& RVFClipAnything ≠ 0
    · rw [if_pos hc]
    · rw [if_neg hc]
      apply ih
      · intro i hi
        exact hrange i (List.mem_cons_of_mem _ hi)
      · obtain ⟨i, hi, hif⟩ := hclip
        rcases List.mem_cons.mp hi with h1 | h2
        · subst h1
          exact absurd hif hc
        · exact ⟨i, h2, hif⟩

/-- If every index is in range and no referenced vertex carries a clip flag,
the check loop reports no clipping. -/
theorem clipCheck_eq_some_false (vram : List RenderVertex) (l : List Int)
    (hok : ∀ i ∈ l, (0 ≤ i ∧ i < (vram.length : Int)) ∧
      (vram.getD i.toNat default).flags &&& RVFClipAnything = 0) :
    clipCheck vram l = some false := by
  induction l with
  | nil => rfl
  | cons j rest ih =>
    obtain ⟨⟨hj0, hjlt⟩, hflag⟩ := hok j (by simp)
    simp only [clipCheck]
    rw [if_neg (by omega), if_neg (not_not_intro hflag)]
    exact ih fun i hi => hok i (List.mem_cons_of_mem _ hi)

/-- C3: a Polygon command whose indices are all in range and at least one of
whose referenced vertices carries a clip flag leaves the entire engine state
unchanged: no polygon is stored and no vertex is transformed. -/
theorem polygon_with_clipped_vertex_dropped (e3d : HwEngine3d) (cmd : E3DCmd_Polygon)
    (hrange : ∀ i ∈ polyIdxList cmd, 0 ≤ i ∧ i < (e3d.nextVram.length : Int))
    (hclip : ∃ i ∈ polyIdxList cmd,
      (e3d.nextVram.getD i.toNat default).flags &&& RVFClipAnything ≠ 0) :
    cmdPolygon e3d cmd = some e3d := by
  simp only [cmdPolygon]
  rw [clipCheck_eq_some_true _ _ hrange hclip]

/-- Witness for C3: a triangle referencing a `w = 0` (hence fully clipped)
vertex is dropped with the state unchanged. -/
theorem polygon_with_clipped_vertex_dropped_witness :
    cmdPolygon (cmdVertex NewHwEngine3d ⟨⟨0⟩, ⟨0⟩, ⟨0⟩, ⟨0⟩⟩) ⟨⟨0, 0, 0, 0⟩, 0⟩
      = some (cmdVertex NewHwEngine3d ⟨⟨0⟩, ⟨0⟩, ⟨0⟩, ⟨0⟩⟩) :=
  polygon_with_clipped_vertex_dropped _ _ (by decide) (by decide)

/-! ## Claim C4 -/

/-- Clearing bit 31 through the and-not mask really clears it. -/
theorem land_maskout_quad (a : Nat) : (a &&& RPFQuadMaskOut) &&& RPFQuad = 0 := by
  rw [Nat.and_assoc]
  have h : RPFQuadMaskOut &&& RPFQuad = 0 := by decide
  rw [h, Nat.and_zero]

/-- C4: a quad polygon command (bit 31 set) whose four indices are in range
and whose vertices are clip-free appends exactly two triangles, both with
the quad flag cleared; the first is `(0,1,2)` of the submitted indices and
the second is the first with submitted index 3 placed in vertex slot 1,
i.e. `(0,3,2)` — so the union of the two triangles' index sets is the quad's
four indices, indices 0 and 2 appear in both triangles, and (when the four
indices are pairwise distinct) indices 1 and 3 each appear in exactly one. -/
theorem quad_split_two_triangles (e3d : HwEngine3d) (cmd : E3DCmd_Polygon)
    (hquad : cmd.attr &&& RPFQuad ≠ 0)
    (hok : ∀ i ∈ polyIdxList cmd, (0 ≤ i ∧ i < (e3d.nextVram.length : Int)) ∧
      (e3d.nextVram.getD i.toNat default).flags &&& RVFClipAnything = 0) :
    ∃ e2, cmdPolygon e3d cmd = some e2 ∧
      ∃ p1 p2, e2.nextPram = e3d.nextPram ++ [p1, p2] ∧
        p1.flags &&& RPFQuad = 0 ∧
        p2.flags &&& RPFQuad = 0 ∧
        p1.vtx = cmd.vtx ∧
        p2.vtx = ⟨cmd.vtx.i0, cmd.vtx.i3, cmd.vtx.i2, cmd.vtx.i3⟩ ∧
        (∀ j : Int, (j ∈ triIdx p1 ∨ j ∈ triIdx p2) ↔
          j ∈ [cmd.vtx.i0, cmd.vtx.i1, cmd.vtx.i2, cmd.vtx.i3]) ∧
        cmd.vtx.i0 ∈ triIdx p1 ∧ cmd.vtx.i0 ∈ triIdx p2 ∧
        cmd.vtx.i2 ∈ triIdx p1 ∧ cmd.vtx.i2 ∈ triIdx p2 ∧
        cmd.vtx.i1 ∈ triIdx p1 ∧ cmd.vtx.i3 ∈ triIdx p2 ∧
        ([cmd.vtx.i0, cmd.vtx.i1, cmd.vtx.i2, cmd.vtx.i3].Nodup →
          cmd.vtx.i1 ∉ triIdx p2 ∧ cmd.vtx.i3 ∉ triIdx p1) := by
  simp only [cmdPolygon]
  rw [clipCheck_eq_some_false _ _ hok]
  rw [if_pos hquad]
  refine ⟨_, rfl, _, _, rfl, land_maskout_quad _, land_maskout_quad _, rfl, rfl,
    ?_, ?_, ?_, ?_, ?_, ?_, ?_, ?_⟩
  · intro j
    simp only [triIdx, List.mem_cons, List.not_mem_nil, or_false]
    tauto
  · simp [triIdx]
  · simp [triIdx]
  · simp [triIdx]
  · simp [triIdx]
  · simp [triIdx]
  · simp [triIdx]
  · intro hnd
    simp only [List.nodup_cons, List.mem_cons, List.not_mem_nil, or_false,
      List.nodup_nil, and_true] at hnd
    simp only [triIdx, List.mem_cons, List.not_mem_nil, or_false]
    constructor
    · intro hmem
      rcases hmem with h1 | h1 | h1 <;> tauto
    · intro hmem
      rcases hmem with h1 | h1 | h1 <;> tauto

/-- Witness for C4: a concrete quad over four clip-free vertices. -/
theorem quad_split_two_triangles_witness :
    ∃ e2, cmdPolygon
        (cmdVertex (cmdVertex (cmdVertex (cmdVertex NewHwEngine3d
          ⟨⟨0⟩, ⟨0⟩, ⟨0⟩, ⟨4096⟩⟩) ⟨⟨0⟩, ⟨0⟩, ⟨0⟩, ⟨4096⟩⟩) ⟨⟨0⟩, ⟨0⟩, ⟨0⟩, ⟨4096⟩⟩)
          ⟨⟨0⟩, ⟨0⟩, ⟨0⟩, ⟨4096⟩⟩)
        ⟨⟨0, 1, 2, 3⟩, RPFQuad⟩ = some e2 ∧
      ∃ p1 p2, e2.nextPram =
          (cmdVertex (cmdVertex (cmdVertex (cmdVertex NewHwEngine3d
            ⟨⟨0⟩, ⟨0⟩, ⟨0⟩, ⟨4096⟩⟩) ⟨⟨0⟩, ⟨0⟩, ⟨0⟩, ⟨4096⟩⟩) ⟨⟨0⟩, ⟨0⟩, ⟨0⟩, ⟨4096⟩⟩)
            ⟨⟨0⟩, ⟨0⟩, ⟨0⟩, ⟨4096⟩⟩).nextPram ++ [p1, p2] ∧
        p1.flags &&& RPFQuad = 0 ∧
        p2.flags &&& RPFQuad = 0 ∧
        p1.vtx = (⟨⟨0, 1, 2, 3⟩, RPFQuad⟩ : E3DCmd_Polygon).vtx ∧
        p2.vtx = ⟨0, 3, 2, 3⟩ ∧
        (∀ j : Int, (j ∈ triIdx p1 ∨ j ∈ triIdx p2) ↔ j ∈ [(0 : Int), 1, 2, 3]) ∧
        (0 : Int) ∈ triIdx p1 ∧ (0 : Int) ∈ triIdx p2 ∧
        (2 : Int) ∈ triIdx p1 ∧ (2 : Int) ∈ triIdx p2 ∧
        (1 : Int) ∈ triIdx p1 ∧ (3 : Int) ∈ triIdx p2 ∧
        ([(0 : Int), 1, 2, 3].Nodup →
          (1 : Int) ∉ triIdx p2 ∧ (3 : Int) ∉ triIdx p1) :=
  quad_split_two_triangles _ ⟨⟨0, 1, 2, 3⟩, RPFQuad⟩ (by decide) (by decide)

/-! ## Claim C1 -/

/-- Running `n` Vertex commands always succeeds and grows the "next" vertex
array by `n` — there is no capacity check anywhere on this path. -/
theorem run_replicate_vertex (n : Nat) (s : HwEngine3d) (c : E3DCmd_Vertex) :
    ∃ s2, run s (List.replicate n (Cmd.vertex c)) = some s2 ∧
      s2.nextVram.length = s.nextVram.length + n := by
  induction n generalizing s with
  | zero => exact ⟨s, rfl, by simp⟩
  | succ k ih =>
    obtain ⟨s2, hrun, hlen⟩ := ih (cmdVertex s c)
    refine ⟨s2, ?_, ?_⟩
    · rw [List.replicate_succ]
      simpa only [run, applyCmd] using hrun
    · rw [hlen]
      simp only [cmdVertex, List.length_append, List.length_singleton]
      omega

/-- Counterexample to C1: submitting 4097 Vertex commands from startup with
no intervening SwapBuffers does not halt — the run succeeds and the 4097th
vertex is appended (length 4097, beyond the 4096-entry storage slot). -/
theorem vertex_4097_not_fatal :
    ∃ s2, run NewHwEngine3d
        (List.replicate 4097 (Cmd.vertex ⟨⟨0⟩, ⟨0⟩, ⟨0⟩, ⟨4096⟩⟩)) = some s2 ∧
      s2.nextVram.length = 4097 := by
  obtain ⟨s2, h1, h2⟩ := run_replicate_vertex 4097 NewHwEngine3d ⟨⟨0⟩, ⟨0⟩, ⟨0⟩, ⟨4096⟩⟩
  exact ⟨s2, h1, by simpa [NewHwEngine3d] using h2⟩

/-- C1 (amended): `cmdVertex` never fails; it unconditionally appends the
built vertex, and when the slice is at capacity Go's `append` reallocates it
onto a fresh heap array (abandoning the 4096-entry storage slot) rather than
truncating or halting. -/
theorem cmdVertex_appends_reallocating (s : HwEngine3d) (c : E3DCmd_Vertex) :
    (cmdVertex s c).nextVram = s.nextVram ++ [buildVertex c] ∧
    (s.nextVramCap ≤ s.nextVram.length →
      (cmdVertex s c).nextVramBack = Backing.heap s.freshCnt) := by
  constructor
  · rfl
  · intro hcap
    simp only [cmdVertex, appendSlice]
    rw [if_neg (by omega)]

/-- Witness for C1 (amended) on a zero-capacity slice: the vertex is
appended onto a freshly allocated heap backing. -/
theorem cmdVertex_appends_reallocating_witness :
    (cmdVertex {} ⟨⟨1⟩, ⟨2⟩, ⟨3⟩, ⟨4096⟩⟩).nextVram
      = ({} : HwEngine3d).nextVram ++ [buildVertex ⟨⟨1⟩, ⟨2⟩, ⟨3⟩, ⟨4096⟩⟩] ∧
    (cmdVertex {} ⟨⟨1⟩, ⟨2⟩, ⟨3⟩, ⟨4096⟩⟩).nextVramBack
      = Backing.heap ({} : HwEngine3d).freshCnt :=
  ⟨(cmdVertex_appends_reallocating {} ⟨⟨1⟩, ⟨2⟩, ⟨3⟩, ⟨4096⟩⟩).1,
   (cmdVertex_appends_reallocating {} ⟨⟨1⟩, ⟨2⟩, ⟨3⟩, ⟨4096⟩⟩).2 (by decide)⟩

/-! ## Claim C2 -/

/-- `appendSlice` either keeps the backing (still fits) or moves to the
fresh heap array. -/
theorem appendSlice_cases (len k cap : Nat) (back : Backing) (fresh : Nat) :
    (appendSlice len k cap back fresh = (back, cap, fresh) ∧ len + k ≤ cap) ∨
    (appendSlice len k cap back fresh
        = (Backing.heap fresh, max (2 * cap) (len + k), fresh + 1) ∧ cap < len + k) := by
  unfold appendSlice
  by_cases h : len + k ≤ cap
  · exact Or.inl ⟨if_pos h, h⟩
  · exact Or.inr ⟨if_neg h, by omega⟩

/-- The invariant holds at startup. -/
theorem engineInv_init : EngineInv NewHwEngine3d := by
  refine ⟨Or.inl rfl, Or.inl rfl, by decide, by decide, ?_, ?_⟩ <;>
    · intro i h
      exact Backing.noConfusion h

/-- `cmdVertex` preserves the backing invariant and the frame counter. -/
theorem engineInv_cmdVertex (s : HwEngine3d) (c : E3DCmd_Vertex)
    (h : EngineInv s) : EngineInv (cmdVertex s c) := by
  obtain ⟨h1, h2, h3, h4, h5, h6⟩ := h
  rcases appendSlice_cases s.nextVram.length 1 s.nextVramCap s.nextVramBack s.freshCnt
    with ⟨heq, hle⟩ | ⟨heq, hlt⟩ <;>
    · refine ⟨?_, ?_, ?_, ?_, ?_, ?_⟩ <;>
        simp only [EngineInv, cmdVertex, heq] <;>
        first
          | (rcases h1 with ha | ⟨i, hi, hif⟩
             · exact Or.inl ha
             · exact Or.inr ⟨i, hi, by omega⟩)
          | (rcases h2 with ha | ⟨i, hi, hif⟩
             · exact Or.inl ha
             · exact Or.inr ⟨i, hi, by omega⟩)
          | exact Or.inr ⟨s.freshCnt, rfl, by omega⟩
          | exact h3
          | exact h4
          | exact fun i hi => by have := h5 i hi; omega
          | exact fun i hi => by have := h6 i hi; omega
          | exact fun heq2 => absurd (h5 _ heq2) (by omega)

/-- Appending to the "next" polygon slice (with any element count and new
contents) preserves the backing invariant. -/
theorem engineInv_pramAppend (s : HwEngine3d) (k : Nat) (vram2 : List RenderVertex)
    (pram2 : List RenderPolygon) (h : EngineInv s) :
    EngineInv { s with
                nextVram := vram2, nextPram := pram2,
                nextPramBack :=
                  (appendSlice s.nextPram.length k s.nextPramCap s.nextPramBack s.freshCnt).1,
                nextPramCap :=
                  (appendSlice s.nextPram.length k s.nextPramCap s.nextPramBack s.freshCnt).2.1,
                freshCnt :=
                  (appendSlice s.nextPram.length k s.nextPramCap s.nextPramBack s.freshCnt).2.2 } := by
  obtain ⟨h1, h2, h3, h4, h5, h6⟩ := h
  rcases appendSlice_cases s.nextPram.length k s.nextPramCap s.nextPramBack s.freshCnt
    with ⟨heq, hle⟩ | ⟨heq, hlt⟩ <;>
    · refine ⟨?_, ?_, ?_, ?_, ?_, ?_⟩ <;>
        simp only [EngineInv, heq] <;>
        first
          | (rcases h1 with ha | ⟨i, hi, hif⟩
             · exact Or.inl ha
             · exact Or.inr ⟨i, hi, by omega⟩)
          | (rcases h2 with ha | ⟨i, hi, hif⟩
             · exact Or.inl ha
             · exact Or.inr ⟨i, hi, by omega⟩)
          | exact Or.inr ⟨s.freshCnt, rfl, by omega⟩
          | exact h3
          | exact h4
          | exact fun i hi => by have := h5 i hi; omega
          | exact fun i hi => by have := h6 i hi; omega
          | exact fun heq2 => absurd (h6 _ heq2) (by omega)

/-- `cmdPolygon` preserves the backing invariant and the frame counter. -/
theorem engineInv_cmdPolygon (s s2 : HwEngine3d) (c : E3DCmd_Polygon)
    (h : cmdPolygon s c = some s2) (hInv : EngineInv s) :
    EngineInv s2 ∧ s2.framecnt = s.framecnt := by
  simp only [cmdPolygon] at h
  split at h
  · exact absurd h (by simp)
  · injection h with h
    subst h
    exact ⟨hInv, rfl⟩
  · split at h <;>
    · injection h with h
      subst h
      exact ⟨engineInv_pramAppend s _ _ _ hInv, rfl⟩

/-- `cmdSwapBuffers` preserves the backing invariant, increments the frame
counter, promotes the "next" backings to "current", and re-slices "next"
empty from the slot of the new parity. -/
theorem engineInv_cmdSwapBuffers (s s2 : HwEngine3d)
    (h : cmdSwapBuffers s = some s2) (hInv : EngineInv s) :
    EngineInv s2 ∧ s2.framecnt = s.framecnt + 1 ∧
    s2.curVramBack = s.nextVramBack ∧ s2.curPramBack = s.nextPramBack ∧
    s2.nextVram = [] ∧ s2.nextPram = [] ∧
    s2.nextVramBack = Backing.slot (s2.framecnt &&& 1) ∧
    s2.nextPramBack = Backing.slot (s2.framecnt &&& 1) ∧
    s2.curVramBack ≠ s.curVramBack ∧ s2.curPramBack ≠ s.curPramBack := by
  obtain ⟨h1, h2, h3, h4, h5, h6⟩ := hInv
  simp only [cmdSwapBuffers] at h
  split at h
  · exact absurd h (by simp)
  · injection h with h
    subst h
    have hpar : (s.framecnt + 1) &&& 1 ≠ s.framecnt &&& 1 := by
      rw [Nat.and_one_is_mod, Nat.and_one_is_mod]
      omega
    refine ⟨⟨Or.inl rfl, Or.inl rfl, ?_, ?_, ?_, ?_⟩,
      rfl, rfl, rfl, rfl, rfl, rfl, rfl, ?_, ?_⟩
    · rcases h1 with ha | ⟨i, hi, hif⟩
      · rw [ha]
        intro hcon
        injection hcon with hcon
        exact hpar hcon.symm
      · rw [hi]
        exact fun hcon => Backing.noConfusion hcon
    · rcases h2 with ha | ⟨i, hi, hif⟩
      · rw [ha]
        intro hcon
        injection hcon with hcon
        exact hpar hcon.symm
      · rw [hi]
        exact fun hcon => Backing.noConfusion hcon
    · intro i hi
      rcases h1 with ha | ⟨j, hj, hjf⟩
      · rw [ha] at hi
        exact Backing.noConfusion hi
      · rw [hj] at hi
        injection hi with hi
        show i < s.freshCnt
        omega
    · intro i hi
      rcases h2 with ha | ⟨j, hj, hjf⟩
      · rw [ha] at hi
        exact Backing.noConfusion hi
      · rw [hj] at hi
        injection hi with hi
        show i < s.freshCnt
        omega
    · exact fun hcon => h3 hcon.symm
    · exact fun hcon => h4 hcon.symm

/-- Running any command list from an invariant state keeps the invariant,
and the frame counter advances by exactly the number of SwapBuffers. -/
theorem engineInv_run (cs : List Cmd) (s s2 : HwEngine3d)
    (h : run s cs = some s2) (hInv : EngineInv s) :
    EngineInv s2 ∧ s2.framecnt = s.framecnt + countSwaps cs := by
  induction cs generalizing s with
  | nil =>
    injection h with h
    subst h
    exact ⟨hInv, by simp [countSwaps]⟩
  | cons c rest ih =>
    simp only [run] at h
    split at h
    · exact absurd h (by simp)
    · rename_i s1 happly
      cases c with
      | swapBuffers =>
        obtain ⟨hi1, hfc1, _⟩ := engineInv_cmdSwapBuffers s s1 happly hInv
        obtain ⟨hi2, hfc2⟩ := ih s1 h hi1
        refine ⟨hi2, ?_⟩
        rw [hfc2, hfc1]
        simp only [countSwaps]
        omega
      | setViewport v =>
        simp only [applyCmd] at happly
        injection happly with happly
        subst happly
        obtain ⟨hi2, hfc2⟩ := ih _ h hInv
        exact ⟨hi2, by rw [hfc2]; rfl⟩
      | polygon pc =>
        simp only [applyCmd] at happly
        obtain ⟨hi1, hfc1⟩ := engineInv_cmdPolygon s s1 pc happly hInv
        obtain ⟨hi2, hfc2⟩ := ih s1 h hi1
        exact ⟨hi2, by rw [hfc2, hfc1]; rfl⟩
      | vertex vc =>
        simp only [applyCmd] at happly
        injection happly with happly
        subst happly
        obtain ⟨hi2, hfc2⟩ := ih _ h (engineInv_cmdVertex s vc hInv)
        exact ⟨hi2, by rw [hfc2]; rfl⟩

/-- C2: after any run from startup, the frame counter equals the number of
swaps; performing the next SwapBuffers (the `N`-th, `N ≥ 1`) gives counter
parity `N mod 2`, a "current" backing that differs from the one backing
"current" immediately before the swap, and fresh "next" arrays that are
empty and backed by the storage slot whose parity matches the new frame
counter. -/
theorem swapBuffers_parity_and_pingpong (cs : List Cmd) (s s2 : HwEngine3d)
    (hrun : run NewHwEngine3d cs = some s)
    (hswap : cmdSwapBuffers s = some s2) :
    s.framecnt = countSwaps cs ∧
    s2.framecnt % 2 = (countSwaps cs + 1) % 2 ∧
    s2.curVramBack ≠ s.curVramBack ∧
    s2.curPramBack ≠ s.curPramBack ∧
    s2.nextVram = [] ∧
    s2.nextPram = [] ∧
    s2.nextVramBack = Backing.slot (s2.framecnt % 2) ∧
    s2.nextPramBack = Backing.slot (s2.framecnt % 2) := by
  obtain ⟨hinv, hfc⟩ := engineInv_run cs NewHwEngine3d s hrun engineInv_init
  obtain ⟨hi2, hfc2, hcv, hcp, hnv, hnp, hnvb, hnpb, hneq1, hneq2⟩ :=
    engineInv_cmdSwapBuffers s s2 hswap hinv
  have hfc0 : s.framecnt = countSwaps cs := by
    simpa [NewHwEngine3d] using hfc
  refine ⟨hfc0, by omega, hneq1, hneq2, hnv, hnp, ?_, ?_⟩
  · rw [hnvb, Nat.and_one_is_mod]
  · rw [hnpb, Nat.and_one_is_mod]

/-- Witness for C2: the first swap from startup. -/
theorem swapBuffers_parity_and_pingpong_witness :
    ∃ s2, cmdSwapBuffers NewHwEngine3d = some s2 ∧
      (NewHwEngine3d.framecnt = countSwaps [] ∧
       s2.framecnt % 2 = (countSwaps [] + 1) % 2 ∧
       s2.curVramBack ≠ NewHwEngine3d.curVramBack ∧
       s2.curPramBack ≠ NewHwEngine3d.curPramBack ∧
       s2.nextVram = [] ∧
       s2.nextPram = [] ∧
       s2.nextVramBack = Backing.slot (s2.framecnt % 2) ∧
       s2.nextPramBack = Backing.slot (s2.framecnt % 2)) := by
  obtain ⟨s2, hs2⟩ : ∃ s2, cmdSwapBuffers NewHwEngine3d = some s2 := ⟨_, rfl⟩
  exact ⟨s2, hs2, swapBuffers_parity_and_pingpong [] NewHwEngine3d s2 rfl hs2⟩

/-! ## Claim C10 -/

/-- C10 fails on the code: `boundaryScene` uses only in-display viewports,
yet its single stored triangle has all vertices at `sy = 192` (a vertex with
`cy = cw` passes the strict clip tests and transforms to one row past the
bottom), so `Draw3D`'s bucket population writes index 192 — outside the
192-entry `polyPerLine` array (valid indices 0..191). -/
theorem draw_bucket_out_of_bounds :
    runBuckets boundaryScene = [192] ∧
    ¬ (∀ y ∈ runBuckets boundaryScene, 0 ≤ y ∧ y ≤ 191) := by
  constructor
  · rfl
  · decide
